import Mathlib

/-!
Verification of the grocery-scraper repository (orchestrator `index.js`,
browser IGA adapter `scrapers/iga2.js`, Harris Farm adapter, Aldi API
adapter, and the front-end `StoreSearch` component).

Modelling conventions:
* JavaScript numbers produced by `parseFloat` on price strings are exact
  decimals; we model them as unnormalized scaled integers (`DecNum`:
  integer numerator over `10 ^ scale`), which matches the exact-rational
  idealization of the arithmetic the code performs (add, sub, compare,
  `toFixed(2)`).  `Infinity` sentinels are the `JsNum.inf` constructor.
* JavaScript strings are Lean `String`s; all scanning (regexp matching,
  `includes`, `trim`, `toLowerCase`, `split`) is implemented character by
  character, following the exact semantics of the regexps in the source.
  Scientific-notation input to `parseFloat` is not modelled (no call site
  feeds it an exponent form).
* `null`/absent JS string values are `Option String` where the distinction
  matters, and `""` where the code only ever uses truthiness.
* `Array.prototype.sort` with a consistent comparator is modelled as a
  stable sort (`List.insertionSort`) by the comparator's preorder.
-/

/-! ## JS-style string primitives -/

/-- Whitespace test used by `\s`, `trim`, and `replace(/\s+/g, ' ')`. -/
def isWsChar (c : Char) : Bool :=
  c = ' ' || c = '\t' || c = '\n' || c = '\r'

/-- `needle` is a prefix of `hay` (character lists). -/
def startsWithChars : List Char → List Char → Bool
  | [], _ => true
  | _ :: _, [] => false
  | a :: as, b :: bs => a = b && startsWithChars as bs

/-- Case-insensitive prefix test (for `/i` regexps). -/
def startsWithCI (needle hay : List Char) : Bool :=
  startsWithChars (needle.map Char.toLower) (hay.map Char.toLower)

/-- `String.prototype.includes` on character lists. -/
def containsChars (needle : List Char) : List Char → Bool
  | [] => needle.isEmpty
  | c :: rest => startsWithChars needle (c :: rest) || containsChars needle rest

/-- `hay.includes(pat)`. -/
def strIncludes (hay pat : String) : Bool :=
  containsChars pat.data hay.data

/-- `String.prototype.toLowerCase` (ASCII, as used by the sources). -/
def jsToLower (s : String) : String :=
  String.mk (s.data.map Char.toLower)

/-- `trim` on a character list. -/
def jsTrimList (cs : List Char) : List Char :=
  ((cs.dropWhile isWsChar).reverse.dropWhile isWsChar).reverse

/-- `String.prototype.trim`. -/
def jsTrim (s : String) : String :=
  String.mk (jsTrimList s.data)

/-- Helper for `replace(/\s+/g, ' ')`: the flag records whether the previous
character was whitespace (so a run collapses to one space). -/
def collapseWsAux : Bool → List Char → List Char
  | _, [] => []
  | prevWs, c :: rest =>
    if isWsChar c then
      if prevWs then collapseWsAux true rest
      else ' ' :: collapseWsAux true rest
    else c :: collapseWsAux false rest

/-- `s.replace(/\s+/g, ' ')` on a character list. -/
def collapseWs (cs : List Char) : List Char :=
  collapseWsAux false cs

/-- `s.replace(/[^0-9.]/g, '')`. -/
def stripNonNumeric (cs : List Char) : List Char :=
  cs.filter (fun c => c.isDigit || c = '.')

/-- `s.replace('$', '')` (first occurrence only, as in JS). -/
def removeFirstDollar : List Char → List Char
  | [] => []
  | '$' :: r => r
  | c :: r => c :: removeFirstDollar r

/-- First index of `needle` in `hay` (`String.prototype.indexOf`). -/
def jsIndexOfAux (needle : List Char) : List Char → Nat → Option Nat
  | [], i => if needle.isEmpty then some i else none
  | c :: rest, i =>
    if startsWithChars needle (c :: rest) then some i
    else jsIndexOfAux needle rest (i + 1)

/-- `hay.substring(hay.indexOf(needle) + needle.length)`; when `indexOf`
returns `-1` JS clamps `substring(needle.length - 1)`. -/
def afterFirstOccur (hay needle : List Char) : List Char :=
  match jsIndexOfAux needle hay 0 with
  | some i => hay.drop (i + needle.length)
  | none => hay.drop (needle.length - 1)

/-- `split(' ')` on a character list (JS keeps empty fields). -/
def splitSpChars (cs : List Char) : List (List Char) :=
  cs.foldr
    (fun c acc =>
      if c = ' ' then [] :: acc
      else
        match acc with
        | [] => [[c]]
        | h :: t => (c :: h) :: t)
    [[]]

/-- `s.split(' ')`. -/
def jsSplitSpace (s : String) : List String :=
  (splitSpChars s.data).map String.mk

/-- `words.length > 0 ? words[0] : dflt`. -/
def firstWordOr (s : String) (dflt : String) : String :=
  match jsSplitSpace s with
  | [] => dflt
  | w :: _ => w

/-- `arr.join(' ')`. -/
def joinSpace : List String → String
  | [] => ""
  | [w] => w
  | w :: ws => w ++ " " ++ joinSpace ws

/-! ## Exact decimal numbers (`parseFloat` results) -/

/-- An exact decimal: the value is `num / 10 ^ scale`.  Not normalized, so
all arithmetic is integer arithmetic (kernel-computable). -/
structure DecNum where
  num : Int
  scale : Nat
deriving Repr, DecidableEq

/-- Comparator `a <= b` by cross multiplication. -/
def DecNum.le (a b : DecNum) : Bool :=
  decide (a.num * 10 ^ b.scale ≤ b.num * 10 ^ a.scale)

/-- Comparator `a < b` by cross multiplication. -/
def DecNum.lt (a b : DecNum) : Bool :=
  decide (a.num * 10 ^ b.scale < b.num * 10 ^ a.scale)

/-- Exact subtraction at the common scale. -/
def DecNum.sub (a b : DecNum) : DecNum :=
  ⟨a.num * 10 ^ (max a.scale b.scale - a.scale)
      - b.num * 10 ^ (max a.scale b.scale - b.scale),
    max a.scale b.scale⟩

/-- Exact addition at the common scale. -/
def DecNum.add (a b : DecNum) : DecNum :=
  ⟨a.num * 10 ^ (max a.scale b.scale - a.scale)
      + b.num * 10 ^ (max a.scale b.scale - b.scale),
    max a.scale b.scale⟩

/-- The rational value of a `DecNum` (specification view). -/
def DecNum.toRat (d : DecNum) : ℚ :=
  (d.num : ℚ) / 10 ^ d.scale

/-- A JS number as stored in `numericPrice`: a finite decimal or the
`Infinity` sentinel. -/
inductive JsNum where
  | fin (d : DecNum)
  | inf
deriving Repr, DecidableEq

/-- The sign of the comparator `a - b` (with `NaN ↦ 0` for `inf - inf`,
per the ECMAScript sort specification): `a - b ≤ 0`. -/
def JsNum.le : JsNum → JsNum → Bool
  | JsNum.fin a, JsNum.fin b => DecNum.le a b
  | JsNum.fin _, JsNum.inf => true
  | JsNum.inf, JsNum.fin _ => false
  | JsNum.inf, JsNum.inf => true

/-- JS truthiness of a number (`0` is falsy, `Infinity` truthy). -/
def JsNum.truthy : JsNum → Bool
  | JsNum.fin d => decide (d.num ≠ 0)
  | JsNum.inf => true

/-- Digits to a natural number. -/
def digitsToNat (ds : List Char) : Nat :=
  ds.foldl (fun a c => 10 * a + (c.toNat - 48)) 0

/-- Parse a leading `\d+(\.\d*)?` or `\.\d+` number (the longest valid
prefix that `parseFloat` accepts from the call sites in this repository). -/
def parseNumHead (cs : List Char) : Option DecNum :=
  match cs.span Char.isDigit with
  | (ip, rest) =>
    if ip.isEmpty then
      match rest with
      | '.' :: r2 =>
        match r2.span Char.isDigit with
        | (fp, _) =>
          if fp.isEmpty then none
          else some ⟨(digitsToNat fp : Int), fp.length⟩
      | _ => none
    else
      match rest with
      | '.' :: r2 =>
        match r2.span Char.isDigit with
        | (fp, _) =>
          some ⟨(digitsToNat ip * 10 ^ fp.length + digitsToNat fp : Int), fp.length⟩
      | _ => some ⟨(digitsToNat ip : Int), 0⟩

/-- `parseFloat`: skip leading whitespace, optional sign, then the number
head; `none` is `NaN`. -/
def jsParseFloat (s : String) : Option DecNum :=
  match s.data.dropWhile isWsChar with
  | '-' :: r => (parseNumHead r).map (fun d => ⟨-d.num, d.scale⟩)
  | '+' :: r => parseNumHead r
  | cs => parseNumHead cs

/-- `parseFloat(x) || 0` (NaN and 0 both collapse to 0). -/
def jsParseFloatOrZero (s : String) : DecNum :=
  (jsParseFloat s).getD ⟨0, 0⟩

/-- Decimal digits of a natural number (fuel-based so the kernel reduces). -/
def natToChars : Nat → Nat → List Char
  | 0, _ => []
  | fuel + 1, n =>
    if n < 10 then [Nat.digitChar n]
    else natToChars fuel (n / 10) ++ [Nat.digitChar (n % 10)]

/-- Decimal representation of a natural number. -/
def natRepr (n : Nat) : String :=
  String.mk (natToChars (n + 1) n)

/-- Two-digit zero-padded representation (for cents). -/
def twoDigits (k : Nat) : String :=
  if k < 10 then "0" ++ natRepr k else natRepr k

/-- `Number.prototype.toFixed(2)`: round to the nearest multiple of
`1/100`, ties toward `+∞` (the spec's "pick the larger n"). -/
def jsToFixed2 (d : DecNum) : String :=
  let n : Int := Int.fdiv (200 * d.num + 10 ^ d.scale) (2 * 10 ^ d.scale)
  if n < 0 then
    "-" ++ natRepr ((-n).toNat / 100) ++ "." ++ twoDigits ((-n).toNat % 100)
  else
    natRepr (n.toNat / 100) ++ "." ++ twoDigits (n.toNat % 100)

/-! ## Regexp scanners -/

/-- All non-overlapping matches of an anchored matcher, scanning left to
right (`String.prototype.match` with the `g` flag); the matcher returns
the matched characters and the rest of the input.  Fuel is the input
length (every step either consumes the matched characters or one char). -/
def scanAllAux (f : List Char → Option (List Char × List Char)) :
    Nat → List Char → List String
  | 0, _ => []
  | _, [] => []
  | fuel + 1, c :: rest =>
    match f (c :: rest) with
    | some pr => String.mk pr.1 :: scanAllAux f fuel pr.2
    | none => scanAllAux f fuel rest

/-- All matches in a string. -/
def scanAll (f : List Char → Option (List Char × List Char)) (s : String) :
    List String :=
  scanAllAux f s.data.length s.data

/-- First match of an anchored matcher, scanning left to right
(`String.prototype.match` without `g`). -/
def scanFirst {α : Type} (f : List Char → Option α) : List Char → Option α
  | [] => f []
  | c :: rest =>
    match f (c :: rest) with
    | some a => some a
    | none => scanFirst f rest

/-- Anchored `\$\d+\.\d+` (the IGA price regexp). -/
def igaPriceMatchAt : List Char → Option (List Char × List Char)
  | '$' :: r =>
    match r.span Char.isDigit with
    | (d1, r1) =>
      if d1.isEmpty then none
      else
        match r1 with
        | '.' :: r2 =>
          match r2.span Char.isDigit with
          | (d2, r3) =>
            if d2.isEmpty then none
            else some ('$' :: (d1 ++ '.' :: d2), r3)
        | _ => none
  | _ => none

/-- Anchored `\$\d+\.?\d*` (the Harris price regexp). -/
def harrisPriceMatchAt : List Char → Option (List Char × List Char)
  | '$' :: r =>
    match r.span Char.isDigit with
    | (d1, r1) =>
      if d1.isEmpty then none
      else
        match r1 with
        | '.' :: r2 =>
          match r2.span Char.isDigit with
          | (d2, r3) => some ('$' :: (d1 ++ '.' :: d2), r3)
        | _ => some ('$' :: d1, r1)
  | _ => none

/-- Anchored `\d+\.?\d*` (the bare-number regexp of `iga2.js`). -/
def numMatchAt : List Char → Option (List Char × List Char)
  | c :: r =>
    if c.isDigit then
      match (c :: r).span Char.isDigit with
      | (d1, r1) =>
        match r1 with
        | '.' :: r2 =>
          match r2.span Char.isDigit with
          | (d2, r3) => some (d1 ++ '.' :: d2, r3)
        | _ => some (d1, r1)
    else none
  | [] => none

/-- All `\$\d+\.\d+` matches of a string. -/
def jsMatchAllIgaPrices (s : String) : List String :=
  scanAll igaPriceMatchAt s

/-- All `\$\d+\.?\d*` matches of a string. -/
def jsMatchAllHarrisPrices (s : String) : List String :=
  scanAll harrisPriceMatchAt s

/-- `parseFloat(p.replace('$', ''))` for a price match. -/
def priceStrVal (s : String) : DecNum :=
  (jsParseFloat (String.mk (removeFirstDollar s.data))).getD ⟨0, 0⟩

/-! ## Canonical Product record

Fields not involved in any verified claim (`imageUrl`, `productUrl`,
`quantity`, `scraped_at`) are omitted from the embedding. -/

/-- The canonical product record produced by every adapter. -/
structure Product where
  title : String
  store : String
  price : String
  discount : String
  discountedPrice : String
  numericPrice : JsNum
  inStock : Bool
  unitPrice : String
  brand : String
  category : String
deriving Repr, DecidableEq

/-! ## Browser IGA adapter (`scrapers/iga2.js`) -/

/-- One `searchContainers` entry inside `_parseProducts`: the container's
`textContent` and whether it holds a `[data-badge="special"]` element. -/
structure IgaContainer where
  text : String
  hasSpecialBadge : Bool
deriving Repr, DecidableEq

/-- One `a[href*="/product/"]` element: the `alt` text of its `img` child
(`none` when there is no image) and the non-null search containers
(parent, grandparent, next sibling). -/
structure IgaLink where
  imgAlt : Option String
  containers : List IgaContainer
deriving Repr, DecidableEq

/-- `imageElement ? (imageElement.alt || "N/A") : "N/A"`. -/
def igaLinkName (lk : IgaLink) : String :=
  match lk.imgAlt with
  | some a => if a = "" then "N/A" else a
  | none => "N/A"

/-- The `['was', 'now', 'special', 'save']` keyword list. -/
def igaKeywords : List String := ["was", "now", "special", "save"]

/-- `['was','now','special','save'].some(w => containerLower.includes(w))`. -/
def hasKeywordSignal (textLower : String) : Bool :=
  igaKeywords.any (fun w => strIncludes textLower w)

/-- The container loop of `_parseProducts`: the first container whose text
contains `$` and matches `\$\d+\.\d+` decides `(price, discount)` and
breaks; otherwise the defaults `("N/A", "N/A")` survive.  (The quantity
extraction that runs alongside is not modelled: no claim mentions it.) -/
def igaScanContainers : List IgaContainer → String × String
  | [] => ("N/A", "N/A")
  | c :: rest =>
    if strIncludes c.text "$" then
      match jsMatchAllIgaPrices c.text with
      | [] => igaScanContainers rest
      | [p0] =>
        if c.hasSpecialBadge then (p0, "Special price") else (p0, "N/A")
      | p0 :: p1 :: _ =>
        if c.hasSpecialBadge then
          if DecNum.lt (priceStrVal p1) (priceStrVal p0) then
            (p1, "$" ++ jsToFixed2 (DecNum.sub (priceStrVal p0) (priceStrVal p1)))
          else
            (p0, "$" ++ jsToFixed2 (DecNum.sub (priceStrVal p1) (priceStrVal p0)))
        else if hasKeywordSignal (jsToLower c.text) then
          (p1, "$" ++ jsToFixed2 (DecNum.sub (priceStrVal p0) (priceStrVal p1)))
        else (p0, "N/A")
    else igaScanContainers rest

/-- `numericPrice` computation of `_parseProducts`: first `\d+\.?\d*`
match of the price string, else 0. -/
def igaNumericPrice (price : String) : DecNum :=
  if price = "N/A" ∨ price = "" then ⟨0, 0⟩
  else
    match scanAll numMatchAt price with
    | [] => ⟨0, 0⟩
    | n0 :: _ => (jsParseFloat n0).getD ⟨0, 0⟩

/-- Build the product pushed for one product link (`none` when the name is
`"N/A"`). -/
def igaEmitProduct (lk : IgaLink) : Option Product :=
  let name := igaLinkName lk
  let pd := igaScanContainers lk.containers
  if name = "N/A" then none
  else
    some
      { title := name
        store := "IGA"
        price := pd.1
        discount := if pd.2 ≠ "N/A" then pd.2 else ""
        discountedPrice := if pd.2 ≠ "N/A" ∧ pd.1 ≠ "N/A" then pd.1 else ""
        numericPrice := JsNum.fin (igaNumericPrice pd.1)
        inStock := true
        unitPrice := ""
        brand := firstWordOr name "Unknown"
        category := "Grocery" }

/-- The `Set`-based duplicate filter at the end of `_parseProducts`
(first occurrence of each name wins; in `iga2.js` `name` = `title`). -/
def dedupByTitleAux : List String → List Product → List Product
  | _, [] => []
  | seen, p :: rest =>
    if seen.contains p.title then dedupByTitleAux seen rest
    else p :: dedupByTitleAux (p.title :: seen) rest

/-- `_parseProducts` on one scanned page. -/
def igaParseProducts (links : List IgaLink) : List Product :=
  dedupByTitleAux [] (links.filterMap igaEmitProduct)

/-- `products.slice(0, maxResults)` applied when `maxResults` is set and
exceeded. -/
def igaApplyMaxResults (maxResults : Option Nat) (ps : List Product) :
    List Product :=
  match maxResults with
  | some m => if ps.length > m then ps.take m else ps
  | none => ps

/-- `maxResults && products.length >= maxResults` (with `maxResults`
either `null` or a positive count). -/
def igaMaxReached (maxResults : Option Nat) (len : Nat) : Bool :=
  match maxResults with
  | some m => decide (len ≥ m)
  | none => false

/-- The `while (true)` pagination loop of `searchProducts` (interactive
mode off, no `specificPage`), with page navigation + parsing abstracted
as `fetch : page ↦ scanned links or thrown error`.  The `Option` layer is
fuel: `none` means the loop is still running after `fuel` iterations. -/
def igaLoopGas (fetch : Nat → Except String (List IgaLink)) (maxPages : Nat)
    (maxResults : Option Nat) :
    Nat → Nat → List Product → Option (Except String (List Product))
  | 0, _, _ => none
  | fuel + 1, page, acc =>
    if maxPages > 0 ∧ maxPages ≠ 999 ∧ page > maxPages then
      some (Except.ok acc)
    else if igaMaxReached maxResults acc.length then
      some (Except.ok acc)
    else
      match fetch page with
      | Except.error e => some (Except.error e)
      | Except.ok links =>
        match igaParseProducts links with
        | [] => some (Except.ok acc)
        | ps =>
          let acc2 := acc ++ ps
          if igaMaxReached maxResults acc2.length then
            some (Except.ok acc2)
          else igaLoopGas fetch maxPages maxResults fuel (page + 1) acc2

/-- `searchProducts(query, n)` with a numeric second argument: `n > 2`
is taken as `maxResults` (with `maxPages = 2`), otherwise as `maxPages`.
The surrounding `try`/`catch` converts any thrown error into `[]`. -/
def igaSearchNum (fetch : Nat → Except String (List IgaLink)) (n : Nat)
    (fuel : Nat) : Option (List Product) :=
  let maxPages := if n > 2 then 2 else n
  let maxResults : Option Nat := if n > 2 then some n else none
  match igaLoopGas fetch maxPages maxResults fuel 1 [] with
  | some (Except.ok ps) => some (igaApplyMaxResults maxResults ps)
  | some (Except.error _) => some []
  | none => none

/-! ## Harris Farm adapter (`scrapers/harris.js`) -/

/-- Result record of `parseComplexPrice`. -/
structure HarrisParsedPrice where
  mainPrice : String
  unitPrice : String
  discount : String
  originalPrice : String
deriving Repr, DecidableEq

/-- Unit alternation `(kg|g|each|ea|per|l|ml)` in source order. -/
def unitWordsFull : List String := ["kg", "g", "each", "ea", "per", "l", "ml"]

/-- Unit alternation `(kg|g|per|l|ml)` used by strategy 2. -/
def unitWordsNoEach : List String := ["kg", "g", "per", "l", "ml"]

/-- `\d+\.?\d*` continuation after the `\$`: the number characters and the
rest of the input. -/
def numTailAt (r : List Char) : Option (List Char × List Char) :=
  match r.span Char.isDigit with
  | (d1, r1) =>
    if d1.isEmpty then none
    else
      match r1 with
      | '.' :: r2 =>
        match r2.span Char.isDigit with
        | (d2, r3) => some (d1 ++ '.' :: d2, r3)
      | _ => some (d1, r1)

/-- Anchored `\$(\d+\.?\d*)\s*\/?\s*(unit word)` (`/i`): returns the whole
match, the captured number and the captured unit text. -/
def unitMatchAt (words : List String) :
    List Char → Option (List Char × String × String)
  | '$' :: r =>
    match numTailAt r with
    | none => none
    | some pr =>
      let ws1 := pr.2.takeWhile isWsChar
      let r3 := pr.2.dropWhile isWsChar
      let sl :=
        match r3 with
        | '/' :: t => (['/'], t)
        | _ => (([] : List Char), r3)
      let ws2 := sl.2.takeWhile isWsChar
      let r5 := sl.2.dropWhile isWsChar
      match words.find? (fun w => startsWithCI w.data r5) with
      | some w =>
        some ('$' :: pr.1 ++ ws1 ++ sl.1 ++ ws2 ++ r5.take w.data.length,
          String.mk pr.1, String.mk (r5.take w.data.length))
      | none => none
  | _ => none

/-- Anchored `\$(\d+\.?\d*)\s*(?:ea|each)` (`/i`): the captured number. -/
def eachMatchAt : List Char → Option String
  | '$' :: r =>
    match numTailAt r with
    | none => none
    | some pr =>
      if startsWithCI "ea".data (pr.2.dropWhile isWsChar) then
        some (String.mk pr.1)
      else none
  | _ => none

/-- `\s*\$?(\d+\.?\d*)` after a discount keyword: the captured number. -/
def kwCaptureAfter (cs : List Char) : Option String :=
  let r1 := cs.dropWhile isWsChar
  let r2 :=
    match r1 with
    | '$' :: t => t
    | _ => r1
  match numTailAt r2 with
  | some pr => some (String.mk pr.1)
  | none => none

/-- Anchored `(?:save|off|discount)\s*\$?(\d+\.?\d*)` (`/i`), trying the
alternatives in source order at this position. -/
def discountKwMatchAt (cs : List Char) : Option String :=
  match (if startsWithCI "save".data cs then kwCaptureAfter (cs.drop 4) else none) with
  | some cap => some cap
  | none =>
    match (if startsWithCI "off".data cs then kwCaptureAfter (cs.drop 3) else none) with
    | some cap => some cap
    | none =>
      if startsWithCI "discount".data cs then kwCaptureAfter (cs.drop 8)
      else none

/-- First `(?:save|off|discount)\s*\$?(\d+\.?\d*)` match in the string. -/
def harrisDiscountCapture (s : String) : Option String :=
  scanFirst discountKwMatchAt s.data

/-- `priceString.replace(/\s+/g, ' ').trim()`. -/
def cleanPriceStr (s : String) : String :=
  jsTrim (String.mk (collapseWs s.data))

/-- `HarrisScraper.parseComplexPrice`. -/
def parseComplexPrice (priceString : String) : HarrisParsedPrice :=
  if priceString = "" then ⟨"", "", "", ""⟩
  else
    let clean := cleanPriceStr priceString
    let disc :=
      match harrisDiscountCapture clean with
      | some cap => "$" ++ cap
      | none => ""
    match jsMatchAllHarrisPrices clean with
    | [] => ⟨"", "", disc, ""⟩
    | p0 :: pmRest =>
      if disc ≠ "" ∧ pmRest ≠ [] then
        let mainPrice := pmRest.headD ""
        let after := afterFirstOccur clean.data mainPrice.data
        let unit :=
          match scanFirst (unitMatchAt unitWordsFull) after with
          | some x => "$" ++ x.2.1 ++ " / " ++ x.2.2
          | none => ""
        let orig :=
          match jsParseFloat (String.mk (removeFirstDollar disc.data)),
              jsParseFloat (String.mk (removeFirstDollar mainPrice.data)) with
          | some dn, some cn => "$" ++ jsToFixed2 (DecNum.add cn dn)
          | _, _ => ""
        ⟨mainPrice, unit, disc, orig⟩
      else if strIncludes clean "ea" || strIncludes clean "each" then
        match scanFirst eachMatchAt clean.data with
        | some cap =>
          let mainPrice := "$" ++ cap
          let unit :=
            match scanFirst (unitMatchAt unitWordsNoEach) clean.data with
            | some x =>
              if String.mk x.1 ≠ mainPrice then "$" ++ x.2.1 ++ " / " ++ x.2.2
              else ""
            | none => ""
          ⟨mainPrice, unit, disc, ""⟩
        | none => ⟨"", "", disc, ""⟩
      else
        let unit :=
          match scanFirst (unitMatchAt unitWordsFull) clean.data with
          | some x =>
            if String.mk x.1 ≠ p0 then "$" ++ x.2.1 ++ " / " ++ x.2.2
            else ""
          | none => ""
        ⟨p0, unit, disc, ""⟩

/-- `\$[\d,.]+.*$` removal from a product name (the text was already
whitespace-collapsed, so the `.*$` tail always reaches the end). -/
def stripPriceSuffix : List Char → List Char
  | [] => []
  | ['$'] => ['$']
  | '$' :: c :: r =>
    if c.isDigit || c = ',' || c = '.' then []
    else '$' :: stripPriceSuffix (c :: r)
  | c :: r => c :: stripPriceSuffix r

/-- The name clean-up block of the Harris item callback. -/
def cleanupName (raw : String) : String :=
  if raw = "" then ""
  else
    let n1 := jsTrim (String.mk (collapseWs raw.data))
    let n2 := jsTrim (String.mk (stripPriceSuffix n1.data))
    if n2.data.length > 80 then joinSpace ((jsSplitSpace n2).take 6)
    else n2

/-- The price-element loop: the first element whose `parseComplexPrice`
yields a main price decides `(priceText, unitPriceText, discountAmount)`;
otherwise the first element matching `\$\d+\.?\d*` becomes `priceText`
verbatim. -/
def harrisPriceScan : List String → String × String × String
  | [] => ("", "", "")
  | t :: rest =>
    let parsed := parseComplexPrice t
    if parsed.mainPrice ≠ "" then
      (parsed.mainPrice, parsed.unitPrice, parsed.discount)
    else if (scanFirst harrisPriceMatchAt t.data).isSome then (t, "", "")
    else harrisPriceScan rest

/-- Anchored `\$?(\d+\.?\d*)`: the captured number. -/
def optDollarNumMatchAt : List Char → Option String
  | '$' :: r =>
    match numTailAt r with
    | some pr => some (String.mk pr.1)
    | none => none
  | cs =>
    match numTailAt cs with
    | some pr => some (String.mk pr.1)
    | none => none

/-- One Harris product container after DOM selection: the name text the
selector search produced, the texts of the `[class*="price"]` elements,
the text of the discount/save/was elements (`none` when that selection is
empty), the text of the was/original elements, the container's full text,
the out-of-stock element flag, and brand/category element texts.  (The
separate unit-price element fallback is not modelled: no claim involves
the unit price.) -/
structure HarrisContainer where
  nameText : String
  priceTexts : List String
  discountElemText : Option String
  wasElemText : String
  fullText : String
  outOfStock : Bool
  brandElemText : Option String
  categoryElemText : Option String
deriving Repr, DecidableEq

/-- The per-item body of the Harris `each` callback: given the seen-key
set, either `none` (no name/price, or duplicate key) or the pushed
product together with its normalized key. -/
def harrisEmit (seen : List String) (c : HarrisContainer) :
    Option (Product × String) :=
  let name := cleanupName c.nameText
  let scan3 := harrisPriceScan c.priceTexts
  let priceText := scan3.1
  let unitPriceText := scan3.2.1
  let discountAmount := scan3.2.2
  let unitPrice :=
    if unitPriceText ≠ "" then
      match scanFirst optDollarNumMatchAt unitPriceText.data with
      | some d => d
      | none => ""
    else ""
  if name ≠ "" ∧ priceText ≠ "" then
    let productId :=
      jsTrim (jsToLower name) ++ "-" ++ String.mk (stripNonNumeric priceText.data)
    if seen.contains productId then none
    else
      let dor :=
        if discountAmount ≠ "" then
          let pp := parseComplexPrice priceText
          if pp.originalPrice ≠ "" then (discountAmount, pp.originalPrice, priceText)
          else (discountAmount, priceText, "")
        else
          match c.discountElemText with
          | some dtext =>
            let wasPrice := jsTrim c.wasElemText
            if wasPrice ≠ "" then (jsTrim dtext, wasPrice, priceText)
            else (jsTrim dtext, priceText, "")
          | none => ("", priceText, "")
      some
        ({ title := name
           store := "Harris Farm Markets"
           price := dor.2.1
           discount := dor.1
           discountedPrice := dor.2.2
           numericPrice :=
             JsNum.fin (jsParseFloatOrZero (String.mk (stripNonNumeric priceText.data)))
           inStock := !(c.outOfStock || strIncludes (jsToLower c.fullText) "out of stock")
           unitPrice := unitPrice
           brand :=
             match c.brandElemText with
             | some b => jsTrim b
             | none => firstWordOr name ""
           category :=
             match c.categoryElemText with
             | some t => jsTrim t
             | none => "" },
          productId)
  else none

/-! ## Aldi adapter (`aldi.js`, REST API) -/

/-- The `price` object of an Aldi API item. -/
structure AldiPrice where
  amountRelevantDisplay : Option String
  wasPriceDisplay : Option String
deriving Repr, DecidableEq

/-- An Aldi API item (the fields `parseProduct` reads). -/
structure AldiRaw where
  name : Option String
  price : Option AldiPrice
deriving Repr, DecidableEq

/-- One response of the product-search endpoint: HTTP status, the `data`
array (a `none` entry is a JSON `null` item, whose property access makes
`parseProduct` throw and return `null`), and
`meta.pagination.totalCount || 0`. -/
structure AldiResponse where
  status : Nat
  data : List (Option AldiRaw)
  totalCount : Nat
deriving Repr

/-- `o || dflt` for JS strings (empty string is falsy). -/
def jsOrStr (o : Option String) (dflt : String) : String :=
  match o with
  | some s => if s = "" then dflt else s
  | none => dflt

/-- A JS string-or-null that is "truthy": drop `null` and `""`. -/
def jsStrTruthy (o : Option String) : Option String :=
  match o with
  | some s => if s = "" then none else some s
  | none => none

/-- `AldiScraper.parsePrice`: strip `[$,]`, `parseFloat(..) || Infinity`
(so `null`, `NaN` and `0` all become the `Infinity` sentinel). -/
def aldiParsePrice (o : Option String) : JsNum :=
  match jsStrTruthy o with
  | none => JsNum.inf
  | some s =>
    match jsParseFloat (String.mk (s.data.filter (fun c => !(c = '$' || c = ',')))) with
    | some d => if d.num = 0 then JsNum.inf else JsNum.fin d
    | none => JsNum.inf

/-- The non-brand descriptors of `extractBrand`. -/
def aldiDescriptors : List String :=
  ["fresh", "organic", "frozen", "dried", "canned", "premium"]

/-- `AldiScraper.extractBrand`. -/
def aldiExtractBrand (productName : String) : String :=
  if productName = "" then ""
  else
    match jsSplitSpace productName with
    | [] => ""
    | w :: _ =>
      match w.data with
      | [] => ""
      | c :: _ =>
        if c = Char.toUpper c ∧ ¬ aldiDescriptors.contains (jsToLower w) then w
        else ""

/-- `AldiScraper.parseProduct`: a `null` item throws on property access and
is caught to `null`; otherwise the discount rule is keyed on
`wasPriceDisplay` (JS `null` strings become `""` in the record). -/
def aldiParseProduct : Option AldiRaw → Option Product
  | none => none
  | some raw =>
    let priceObj :=
      match raw.price with
      | some p => p
      | none => ⟨none, none⟩
    let currentPrice := jsStrTruthy priceObj.amountRelevantDisplay
    let wasPrice := jsStrTruthy priceObj.wasPriceDisplay
    some
      { title := jsOrStr raw.name "Unknown Product"
        store := "Aldi"
        price :=
          match wasPrice with
          | some w => w
          | none => currentPrice.getD ""
        discount := wasPrice.getD ""
        discountedPrice :=
          match wasPrice with
          | some _ => currentPrice.getD ""
          | none => ""
        numericPrice := aldiParsePrice currentPrice
        inStock := true
        unitPrice := ""
        brand := aldiExtractBrand (jsOrStr raw.name "")
        category := "" }

/-- The items loop: push parsed products, breaking once the target count
is reached. -/
def aldiAddItems (maxResults : Nat) (acc : List Product) :
    List (Option AldiRaw) → List Product
  | [] => acc
  | item :: rest =>
    if acc.length ≥ maxResults then acc
    else
      match aldiParseProduct item with
      | some p => aldiAddItems maxResults (acc ++ [p]) rest
      | none => aldiAddItems maxResults acc rest

/-- `a.numericPrice - b.numericPrice <= 0` for the Aldi price sort. -/
def aldiPriceLe (a b : Product) : Prop :=
  JsNum.le a.numericPrice b.numericPrice = true

instance : DecidableRel aldiPriceLe :=
  fun _ _ => inferInstanceAs (Decidable (_ = true))

/-- `AldiScraper.sortProductsByPrice` (stable comparator sort). -/
def aldiSortByPrice (ps : List Product) : List Product :=
  List.insertionSort aldiPriceLe ps

/-- The `while (products.length < maxResults)` loop of
`AldiScraper.searchProducts`, fuelled; the fetch is indexed by the request
offset and may throw.  `none` means the loop is still running after
`fuel` iterations — the loop has no iteration ceiling of its own. -/
def aldiLoopGas (fetch : Nat → Except String AldiResponse) (maxResults : Nat) :
    Nat → Nat → List Product → Option (Except String (List Product))
  | 0, _, _ => none
  | fuel + 1, offset, acc =>
    if acc.length ≥ maxResults then some (Except.ok acc)
    else
      match fetch offset with
      | Except.error e => some (Except.error e)
      | Except.ok r =>
        if r.status ≠ 200 then some (Except.ok acc)
        else if r.data.isEmpty then some (Except.ok acc)
        else
          let acc2 := aldiAddItems maxResults acc r.data
          if offset + 30 ≥ r.totalCount then some (Except.ok acc2)
          else aldiLoopGas fetch maxResults fuel (offset + 30) acc2

/-- `AldiScraper.searchProducts`: every loop exit sorts and returns; the
`catch` block logs and **re-raises**, so a thrown fetch error propagates
to the caller. -/
def aldiSearchProducts (fetch : Nat → Except String AldiResponse)
    (maxResults : Nat) (fuel : Nat) : Option (Except String (List Product)) :=
  match aldiLoopGas fetch maxResults fuel 0 [] with
  | some (Except.ok ps) => some (Except.ok (aldiSortByPrice ps))
  | some (Except.error e) => some (Except.error e)
  | none => none

/-! ## Orchestrator (`grocery_scraper/index.js`) -/

/-- The four adapters of `this.scrapers`, as search functions
`query ↦ maxResults ↦ products or thrown error`. -/
structure Scrapers where
  woolworths : String → Nat → Except String (List Product)
  coles : String → Nat → Except String (List Product)
  iga : String → Nat → Except String (List Product)
  harris : String → Nat → Except String (List Product)

/-- `Object.keys(this.scrapers)` in construction order. -/
def storeNames : List String := ["woolworths", "coles", "iga", "harris"]

/-- `Object.entries(this.scrapers)`. -/
def scrapersEntries (s : Scrapers) :
    List (String × (String → Nat → Except String (List Product))) :=
  [("woolworths", s.woolworths), ("coles", s.coles), ("iga", s.iga),
    ("harris", s.harris)]

/-- The error message thrown for an unsupported store. -/
def unsupportedStoreMsg (storeName : String) : String :=
  "Store \"" ++ storeName ++ "\" not supported. Available stores: " ++
    "woolworths, coles, iga, harris"

/-- The own property names of `Object.prototype`: a plain-object lookup
`this.scrapers[key]` finds these on the prototype chain, and each of them
yields a truthy (non-adapter) value. -/
def objectProtoProps : List String :=
  ["constructor", "hasOwnProperty", "isPrototypeOf", "propertyIsEnumerable",
    "toLocaleString", "toString", "valueOf", "__proto__", "__defineGetter__",
    "__defineSetter__", "__lookupGetter__", "__lookupSetter__"]

/-- Outcome of the JS property read `this.scrapers[key]`: a configured
adapter (own property), a truthy value inherited from
`Object.prototype`, or `undefined`. -/
inductive ScraperLookup where
  | adapter (f : String → Nat → Except String (List Product))
  | inherited
  | absent

/-- `this.scrapers[key]` with prototype-chain semantics. -/
def scrapersLookup (s : Scrapers) (key : String) : ScraperLookup :=
  match (scrapersEntries s).find? (fun e => e.1 == key) with
  | some e => ScraperLookup.adapter e.2
  | none =>
    if objectProtoProps.contains key then ScraperLookup.inherited
    else ScraperLookup.absent

/-- The message of the `TypeError` raised when `scraper.searchProducts`
is called on an inherited non-adapter value. -/
def protoLookupTypeError : String :=
  "scraper.searchProducts is not a function"

/-- `GroceryScraper.scrapeStore`: look the adapter up by the lower-cased
store name.  The `!scraper` guard throws the unsupported-store user error
only when the lookup is `undefined`; a truthy inherited value passes the
guard and the subsequent `scraper.searchProducts(...)` call throws a
`TypeError` (no adapter search runs in either case). -/
def scrapeStore (s : Scrapers) (storeName query : String) (maxResults : Nat) :
    Except String (List Product) :=
  match scrapersLookup s (jsToLower storeName) with
  | ScraperLookup.adapter f => f query maxResults
  | ScraperLookup.inherited => Except.error protoLookupTypeError
  | ScraperLookup.absent => Except.error (unsupportedStoreMsg storeName)

/-- `.then(products => results[store] = products).catch(err => results[store] = [])`. -/
def settleSearch : Except String (List Product) → List Product
  | Except.ok ps => ps
  | Except.error _ => []

/-- `GroceryScraper.scrapeAllStores`: every adapter contributes an entry,
failures settling to `[]`; the function itself never throws. -/
def scrapeAllStores (s : Scrapers) (query : String) (maxResults : Nat) :
    List (String × List Product) :=
  (scrapersEntries s).map (fun e => (e.1, settleSearch (scrapeStore s e.1 query maxResults)))

/-- The effective sort key of `sortByPrice`:
`a.numericPrice || parseFloat(a.price.replace(/[^0-9.]/g, '')) || 0`. -/
def effectiveKey (p : Product) : JsNum :=
  if JsNum.truthy p.numericPrice then p.numericPrice
  else JsNum.fin (jsParseFloatOrZero (String.mk (stripNonNumeric p.price.data)))

/-- Ascending comparator relation of `sortByPrice`. -/
def priceLeAsc (a b : Product) : Prop :=
  JsNum.le (effectiveKey a) (effectiveKey b) = true

instance : DecidableRel priceLeAsc :=
  fun _ _ => inferInstanceAs (Decidable (_ = true))

/-- Descending comparator relation of `sortByPrice`. -/
def priceLeDesc (a b : Product) : Prop :=
  JsNum.le (effectiveKey b) (effectiveKey a) = true

instance : DecidableRel priceLeDesc :=
  fun _ _ => inferInstanceAs (Decidable (_ = true))

/-- `GroceryScraper.sortByPrice` (stable comparator sort). -/
def sortByPrice (ps : List Product) (ascending : Bool) : List Product :=
  if ascending then List.insertionSort priceLeAsc ps
  else List.insertionSort priceLeDesc ps

/-! ## Front-end `StoreSearch` component (`StoreSearch.jsx`) -/

/-- `itemsPerPage` (a `useState` constant). -/
def itemsPerPage : Nat := 10

/-- The component state touched by search and load-more. -/
structure StoreSearchState where
  allProducts : List Product
  displayedProducts : List Product
  currentDisplayCount : Nat
deriving Repr

/-- The success branch of `handleSearch`: store the fetched superset and
display its first `itemsPerPage` items. -/
def searchSuccess (products : List Product) : StoreSearchState :=
  { allProducts := products
    displayedProducts := products.take itemsPerPage
    currentDisplayCount := min itemsPerPage products.length }

/-- `handleLoadMore`: re-slice the already-fetched superset to a higher
cutoff; no fetch is involved. -/
def handleLoadMore (st : StoreSearchState) : StoreSearchState :=
  { allProducts := st.allProducts
    displayedProducts := st.allProducts.take (st.currentDisplayCount + itemsPerPage)
    currentDisplayCount := st.currentDisplayCount + itemsPerPage }

/-! ## Helper lemmas -/

/-- Every successful `\$\d+\.\d+` match starts with `'$'`. -/
theorem igaPriceMatchAt_shape (cs : List Char) (pr : List Char × List Char)
    (h : igaPriceMatchAt cs = some pr) : ∃ t, pr.1 = '$' :: t := by
  rw [igaPriceMatchAt.eq_def] at h
  split at h
  · split at h
    · split at h
      · exact absurd h (by simp)
      · split at h
        · split at h
          · split at h
            · exact absurd h (by simp)
            · have h2 := (Option.some.injEq _ _).mp h
              exact ⟨_, (congrArg Prod.fst h2).symm⟩
        · exact absurd h (by simp)
  · exact absurd h (by simp)

/-- Every `\$\d+\.\d+` match produced by the global scan starts with `'$'`. -/
theorem scanAllIga_head (fuel : Nat) :
    ∀ (cs : List Char) (m : String), m ∈ scanAllAux igaPriceMatchAt fuel cs →
      ∃ t, m.data = '$' :: t := by
  induction fuel with
  | zero => intro cs m h; simp [scanAllAux] at h
  | succ f ih =>
    intro cs m h
    cases cs with
    | nil => simp [scanAllAux] at h
    | cons c r =>
      rw [scanAllAux] at h
      cases hm : igaPriceMatchAt (c :: r) with
      | none =>
        rw [hm] at h
        exact ih _ _ h
      | some pr =>
        rw [hm] at h
        rcases List.mem_cons.mp h with hEq | hTail
        · obtain ⟨t, ht⟩ := igaPriceMatchAt_shape _ _ hm
          exact ⟨t, by rw [hEq, ht]⟩
        · exact ih _ _ hTail

/-- Every element of `jsMatchAllIgaPrices s` starts with `'$'`. -/
theorem jsMatchAllIgaPrices_head (s : String) (m : String)
    (h : m ∈ jsMatchAllIgaPrices s) : ∃ t, m.data = '$' :: t :=
  scanAllIga_head _ _ _ h

/-- When the container scan reports a discount, the reported price is one
of the `\$...` matches (so it starts with `'$'`). -/
theorem igaScan_shape : ∀ (cs : List IgaContainer) (pd : String × String),
    igaScanContainers cs = pd → pd.2 ≠ "N/A" →
      ∃ t, pd.1.data = '$' :: t := by
  intro cs
  induction cs with
  | nil =>
    intro pd h hne
    rw [igaScanContainers] at h
    rw [← h] at hne
    simp at hne
  | cons c rest ih =>
    intro pd h hne
    rw [igaScanContainers] at h
    split at h
    · cases hm : jsMatchAllIgaPrices c.text with
      | nil =>
        rw [hm] at h
        exact ih pd h hne
      | cons p0 tail =>
        cases tail with
        | nil =>
          rw [hm] at h
          dsimp only at h
          have hp0 : p0 ∈ jsMatchAllIgaPrices c.text := by
            rw [hm]; exact List.mem_cons_self _ _
          obtain ⟨t0, ht0⟩ := jsMatchAllIgaPrices_head _ _ hp0
          split at h
          · rw [← h]
            exact ⟨t0, ht0⟩
          · rw [← h] at hne
            simp at hne
        | cons p1 tail2 =>
          rw [hm] at h
          dsimp only at h
          have hp0 : p0 ∈ jsMatchAllIgaPrices c.text := by
            rw [hm]; exact List.mem_cons_self _ _
          have hp1 : p1 ∈ jsMatchAllIgaPrices c.text := by
            rw [hm]; exact List.mem_cons_of_mem _ (List.mem_cons_self _ _)
          obtain ⟨t0, ht0⟩ := jsMatchAllIgaPrices_head _ _ hp0
          obtain ⟨t1, ht1⟩ := jsMatchAllIgaPrices_head _ _ hp1
          split at h
          · split at h
            · rw [← h]
              exact ⟨t1, ht1⟩
            · rw [← h]
              exact ⟨t0, ht0⟩
          · split at h
            · rw [← h]
              exact ⟨t1, ht1⟩
            · rw [← h] at hne
              simp at hne
    · exact ih pd h hne

/-- The duplicate filter only keeps elements of its input. -/
theorem mem_of_dedupByTitleAux {p : Product} :
    ∀ (seen : List String) (ps : List Product),
      p ∈ dedupByTitleAux seen ps → p ∈ ps := by
  intro seen ps
  induction ps generalizing seen with
  | nil =>
    intro h
    simp [dedupByTitleAux] at h
  | cons q rest ih =>
    intro h
    rw [dedupByTitleAux] at h
    split at h
    · exact List.mem_cons_of_mem _ (ih _ h)
    · rcases List.mem_cons.mp h with hEq | hTail
      · exact hEq ▸ List.mem_cons_self _ _
      · exact List.mem_cons_of_mem _ (ih _ hTail)

/-- The duplicate filter emits no repeated titles and nothing already seen. -/
theorem dedupByTitleAux_nodup :
    ∀ (ps : List Product) (seen : List String),
      ((dedupByTitleAux seen ps).map Product.title).Nodup ∧
        ∀ t ∈ (dedupByTitleAux seen ps).map Product.title, t ∉ seen := by
  intro ps
  induction ps with
  | nil =>
    intro seen
    constructor
    · simp [dedupByTitleAux]
    · simp [dedupByTitleAux]
  | cons q rest ih =>
    intro seen
    rw [dedupByTitleAux]
    split
    · exact ih seen
    · next hc =>
      have hrec := ih (q.title :: seen)
      constructor
      · simp only [List.map_cons, List.nodup_cons]
        constructor
        · intro hmem
          exact hrec.2 _ hmem (List.mem_cons_self _ _)
        · exact hrec.1
      · intro t ht
        simp only [List.map_cons, List.mem_cons] at ht
        rcases ht with rfl | ht2
        · intro hmem
          exact hc (List.elem_iff.mpr hmem)
        · intro hmem
          exact hrec.2 _ ht2 (List.mem_cons_of_mem _ hmem)

/-! ## Claim theorems -/

/-- C2, amended claim: every Product emitted by the browser IGA adapter's
page parse with a non-empty `discount` also has a non-empty
`discountedPrice`. -/
theorem c2_iga_discount_implies_discounted (links : List IgaLink)
    (p : Product) (hmem : p ∈ igaParseProducts links) (hd : p.discount ≠ "") :
    p.discountedPrice ≠ "" := by
  have hfm : p ∈ links.filterMap igaEmitProduct :=
    mem_of_dedupByTitleAux _ _ hmem
  obtain ⟨lk, _, hemit⟩ := List.mem_filterMap.mp hfm
  simp only [igaEmitProduct] at hemit
  split at hemit
  · exact absurd hemit (by simp)
  · have hp := (Option.some.injEq _ _).mp hemit
    rw [← hp] at hd ⊢
    dsimp only at hd ⊢
    by_cases hdisc : (igaScanContainers lk.containers).2 ≠ "N/A"
    · obtain ⟨t, ht⟩ := igaScan_shape lk.containers _ rfl hdisc
      have hPriceNA : (igaScanContainers lk.containers).1 ≠ "N/A" := by
        intro hcon
        have h2 : ("N/A" : String).data.head? = some '$' := by
          rw [← hcon, ht]
          rfl
        exact absurd h2 (by decide)
      have hPriceEmpty : (igaScanContainers lk.containers).1 ≠ "" := by
        intro hcon
        have h2 : ("" : String).data.head? = some '$' := by
          rw [← hcon, ht]
          rfl
        exact absurd h2 (by decide)
      rw [if_pos ⟨hdisc, hPriceNA⟩]
      exact hPriceEmpty
    · rw [if_neg hdisc] at hd
      exact absurd rfl hd

/-- The Harris container of the C2 counterexample: a price element
reading "Save $2.00 $8.99". -/
def c2HarrisContainer : HarrisContainer :=
  ⟨"Royal Gala Apples", ["Save $2.00 $8.99"], none, "", "Save $2.00 $8.99",
    false, none, none⟩

/-- C2, counterexample: the Harris adapter emits a product whose
`discount` is `"$2.00"` while `discountedPrice` is empty — the claimed
invariant fails on the Harris adapter. -/
theorem c2_counterexample :
    (harrisEmit [] c2HarrisContainer).map
        (fun x => (x.1.discount, x.1.discountedPrice)) = some ("$2.00", "") := by
  decide

/-- The IGA link of the C2 witness: a special-badge container. -/
def c2IgaLink : IgaLink :=
  ⟨some "Milk", [⟨"was $5.00 now $3.00", true⟩]⟩

/-- The product the IGA parse emits for `c2IgaLink`. -/
def c2DemoProduct : Product :=
  { title := "Milk"
    store := "IGA"
    price := "$3.00"
    discount := "$2.00"
    discountedPrice := "$3.00"
    numericPrice := JsNum.fin ⟨300, 2⟩
    inStock := true
    unitPrice := ""
    brand := "Milk"
    category := "Grocery" }

/-- C2 witness: the amended theorem applied to a concrete emitted product. -/
theorem c2_theorem_witness :
    c2DemoProduct ∈ igaParseProducts [c2IgaLink] ∧ c2DemoProduct.discount ≠ "" ∧
      c2DemoProduct.discountedPrice ≠ "" :=
  ⟨by decide, by decide,
    c2_iga_discount_implies_discounted [c2IgaLink] c2DemoProduct (by decide) (by decide)⟩

/-- `DecNum.le` decides the rational order. -/
theorem decnum_le_iff (a b : DecNum) :
    DecNum.le a b = true ↔ a.toRat ≤ b.toRat := by
  rw [DecNum.le, decide_eq_true_iff, DecNum.toRat, DecNum.toRat,
    div_le_div_iff₀ (by positivity) (by positivity)]
  constructor
  · intro h
    exact_mod_cast h
  · intro h
    exact_mod_cast h

/-- `DecNum.lt` decides the strict rational order. -/
theorem decnum_lt_iff (a b : DecNum) :
    DecNum.lt a b = true ↔ a.toRat < b.toRat := by
  rw [DecNum.lt, decide_eq_true_iff, DecNum.toRat, DecNum.toRat,
    div_lt_div_iff₀ (by positivity) (by positivity)]
  constructor
  · intro h
    exact_mod_cast h
  · intro h
    exact_mod_cast h

/-- `DecNum.sub` computes the rational difference. -/
theorem decnum_sub_toRat (a b : DecNum) :
    (DecNum.sub a b).toRat = a.toRat - b.toRat := by
  have ha : a.scale ≤ max a.scale b.scale := le_max_left _ _
  have hb : b.scale ≤ max a.scale b.scale := le_max_right _ _
  rw [DecNum.sub, DecNum.toRat, DecNum.toRat, DecNum.toRat]
  dsimp only
  push_cast
  rw [sub_div]
  congr 1
  · rw [div_eq_div_iff (by positivity) (by positivity), mul_assoc, ← pow_add,
      Nat.sub_add_cancel ha]
  · rw [div_eq_div_iff (by positivity) (by positivity), mul_assoc, ← pow_add,
      Nat.sub_add_cancel hb]

/-- The zero decimal is the rational zero. -/
theorem decnum_zero_toRat : (⟨0, 0⟩ : DecNum).toRat = 0 := by
  simp [DecNum.toRat]

/-- C4, counterexample: on the keyword-only container
`"now $3.00 was $5.00"` (no special badge) the IGA extraction assigns the
HIGHER amount `$5.00` as the price and the negative string `"$-2.00"` as
the discount, though the lower amount is `$3.00` — refuting the claim that
the lower amount becomes the price and the non-negative difference the
discount. -/
theorem c4_counterexample :
    igaScanContainers [⟨"now $3.00 was $5.00", false⟩] = ("$5.00", "$-2.00") ∧
      DecNum.lt (priceStrVal "$3.00") (priceStrVal "$5.00") = true :=
  ⟨by decide, by decide⟩

/-- C4, amended claim: when the explicit special badge is present and at
least two amounts are found, the lower-valued of the first two matches
becomes the current price and the non-negative difference of the two
becomes the discount amount. -/
theorem c4_amended (t a b : String) (rest : List String)
    (hinc : strIncludes t "$" = true)
    (hm : jsMatchAllIgaPrices t = a :: b :: rest) :
    igaScanContainers [⟨t, true⟩] =
        ((if DecNum.lt (priceStrVal b) (priceStrVal a) then b else a),
          "$" ++ jsToFixed2
            (if DecNum.lt (priceStrVal b) (priceStrVal a) then
              DecNum.sub (priceStrVal a) (priceStrVal b)
            else DecNum.sub (priceStrVal b) (priceStrVal a))) ∧
      DecNum.le
          (priceStrVal (if DecNum.lt (priceStrVal b) (priceStrVal a) then b else a))
          (priceStrVal a) = true ∧
      DecNum.le
          (priceStrVal (if DecNum.lt (priceStrVal b) (priceStrVal a) then b else a))
          (priceStrVal b) = true ∧
      DecNum.le ⟨0, 0⟩
          (if DecNum.lt (priceStrVal b) (priceStrVal a) then
            DecNum.sub (priceStrVal a) (priceStrVal b)
          else DecNum.sub (priceStrVal b) (priceStrVal a)) = true := by
  refine ⟨?_, ?_, ?_, ?_⟩
  · simp only [igaScanContainers, hinc, hm]
    split_ifs <;> rfl
  · split_ifs with hlt
    · rw [decnum_le_iff]
      exact le_of_lt ((decnum_lt_iff _ _).mp hlt)
    · rw [decnum_le_iff]
  · split_ifs with hlt
    · rw [decnum_le_iff]
    · rw [decnum_le_iff]
      have := (decnum_lt_iff (priceStrVal b) (priceStrVal a)).not.mp hlt
      exact le_of_not_lt this
  · split_ifs with hlt
    · rw [decnum_le_iff, decnum_zero_toRat, decnum_sub_toRat]
      have := (decnum_lt_iff _ _).mp hlt
      linarith
    · rw [decnum_le_iff, decnum_zero_toRat, decnum_sub_toRat]
      have := (decnum_lt_iff (priceStrVal b) (priceStrVal a)).not.mp hlt
      rw [not_lt] at this
      linarith

/-- C4 witness: the amended theorem applied to the badge container
`"was $5.00 now $3.00"`. -/
theorem c4_theorem_witness :
    strIncludes "was $5.00 now $3.00" "$" = true ∧
      DecNum.le ⟨0, 0⟩
          (if DecNum.lt (priceStrVal "$3.00") (priceStrVal "$5.00") then
            DecNum.sub (priceStrVal "$5.00") (priceStrVal "$3.00")
          else DecNum.sub (priceStrVal "$3.00") (priceStrVal "$5.00")) = true :=
  ⟨by decide,
    (c4_amended "was $5.00 now $3.00" "$5.00" "$3.00" [] (by decide) (by decide)).2.2.2⟩

/-- C5, amended claim: within one page scan the IGA adapter emits no two
products with the same name key. -/
theorem c5_iga_page_nodup (links : List IgaLink) :
    ((igaParseProducts links).map Product.title).Nodup :=
  (dedupByTitleAux_nodup _ _).1

/-- The page stream of the C5 counterexample: the same product link on
every page. -/
def c5Fetch : Nat → Except String (List IgaLink) :=
  fun _ => Except.ok [⟨some "Milk", [⟨"$3.50", false⟩]⟩]

/-- C5, counterexample: a two-page IGA run over pages that repeat the same
item returns that item twice — the adapter deduplicates only within one
page, not across pagination iterations. -/
theorem c5_counterexample :
    (igaSearchNum c5Fetch 2 3).map (fun ps => ps.map Product.title) =
        some ["Milk", "Milk"] ∧
      ¬ (["Milk", "Milk"] : List String).Nodup :=
  ⟨by decide, by decide⟩

/-- C1: `scrapeAllStores` returns one entry per configured store, in
order, each entry settling a failed adapter to `[]` and passing a
successful adapter's list through unchanged; the function is total (the
JS counterpart never rejects). -/
theorem c1_scrapeAllStores_entries (s : Scrapers) (q : String) (m : Nat) :
    (scrapeAllStores s q m).map Prod.fst = storeNames ∧
      scrapeAllStores s q m =
        [("woolworths", settleSearch (s.woolworths q m)),
          ("coles", settleSearch (s.coles q m)),
          ("iga", settleSearch (s.iga q m)),
          ("harris", settleSearch (s.harris q m))] := by
  constructor
  · rfl
  · rfl

/-- The all-empty adapters used by the C8 concrete runs. -/
def emptyScrapers : Scrapers :=
  ⟨fun _ _ => Except.ok [], fun _ _ => Except.ok [],
    fun _ _ => Except.ok [], fun _ _ => Except.ok []⟩

/-- C8, counterexample: `"constructor"` names no configured adapter, yet
`scrapeStore` does not fail with the unsupported-store user error — the
`Object.prototype`-inherited lookup is truthy, the `!scraper` guard is
bypassed, and the call fails with a `TypeError` message instead. -/
theorem c8_counterexample :
    jsToLower "constructor" ∉ storeNames ∧
      scrapeStore emptyScrapers "constructor" "milk" 5 =
        Except.error protoLookupTypeError ∧
      protoLookupTypeError ≠ unsupportedStoreMsg "constructor" :=
  ⟨by decide, rfl, by decide⟩

/-- C8, amended claim: a store name whose lower-casing is neither a
configured adapter key nor an `Object.prototype` property name makes
`scrapeStore` fail with the unsupported-store user error before any
fetch; a prototype-property name instead bypasses the guard and fails
with a `TypeError`.  Either way the outcome is independent of the
adapters — no adapter's search is invoked. -/
theorem c8_amended (s s2 : Scrapers) (store query : String) (m : Nat)
    (h : jsToLower store ∉ storeNames) :
    (jsToLower store ∉ objectProtoProps →
      scrapeStore s store query m = Except.error (unsupportedStoreMsg store)) ∧
      (jsToLower store ∈ objectProtoProps →
        scrapeStore s store query m = Except.error protoLookupTypeError) ∧
      scrapeStore s store query m = scrapeStore s2 store query m := by
  have hfind : ∀ sc : Scrapers,
      (scrapersEntries sc).find? (fun e => e.1 == jsToLower store) = none := by
    intro sc
    have h1 : ¬ ("woolworths" == jsToLower store) = true := by
      intro hc
      exact h (by rw [← eq_of_beq hc]; exact List.mem_cons_self _ _)
    have h2 : ¬ ("coles" == jsToLower store) = true := by
      intro hc
      apply h
      rw [← eq_of_beq hc]
      simp [storeNames]
    have h3 : ¬ ("iga" == jsToLower store) = true := by
      intro hc
      apply h
      rw [← eq_of_beq hc]
      simp [storeNames]
    have h4 : ¬ ("harris" == jsToLower store) = true := by
      intro hc
      apply h
      rw [← eq_of_beq hc]
      simp [storeNames]
    simp only [scrapersEntries, List.find?, h1, h2, h3, h4]
  have hlook : ∀ sc : Scrapers,
      scrapersLookup sc (jsToLower store) =
        if objectProtoProps.contains (jsToLower store) then
          ScraperLookup.inherited
        else ScraperLookup.absent := by
    intro sc
    rw [scrapersLookup, hfind sc]
  refine ⟨?_, ?_, ?_⟩
  · intro hnp
    have hc : ¬ (objectProtoProps.contains (jsToLower store) = true) := by
      intro hcon
      exact hnp (List.elem_iff.mp hcon)
    rw [scrapeStore, hlook s, if_neg hc]
  · intro hp
    rw [scrapeStore, hlook s, if_pos (List.elem_iff.mpr hp)]
  · rw [scrapeStore, scrapeStore, hlook s, hlook s2]

/-- C8 witness: the amended theorem at the unknown, non-prototype store
name `"bigw"`. -/
theorem c8_witness :
    jsToLower "bigw" ∉ storeNames ∧ jsToLower "bigw" ∉ objectProtoProps ∧
      scrapeStore emptyScrapers "bigw" "milk" 5 =
        Except.error (unsupportedStoreMsg "bigw") :=
  ⟨by decide, by decide,
    (c8_amended emptyScrapers emptyScrapers "bigw" "milk" 5 (by decide)).1
      (by decide)⟩

/-- C9: "load more" leaves the fetched superset untouched (no re-fetch),
re-slices it to the next cutoff, and for cutoffs `c1 < c2` covered by the
superset the `c2`-slice's first `c1` elements are exactly the `c1`-slice. -/
theorem c9_load_more (st : StoreSearchState) (c1 c2 : Nat) (h1 : c1 < c2)
    (_h2 : c2 ≤ st.allProducts.length) :
    (handleLoadMore st).allProducts = st.allProducts ∧
      (handleLoadMore st).displayedProducts =
        st.allProducts.take (st.currentDisplayCount + itemsPerPage) ∧
      (st.allProducts.take c2).take c1 = st.allProducts.take c1 := by
  refine ⟨rfl, rfl, ?_⟩
  rw [List.take_take, Nat.min_eq_left (le_of_lt h1)]

/-- A neutral product record for witnesses. -/
def sampleProduct : Product :=
  { title := "Bread"
    store := "IGA"
    price := "$2.00"
    discount := ""
    discountedPrice := ""
    numericPrice := JsNum.fin ⟨200, 2⟩
    inStock := true
    unitPrice := ""
    brand := "Bread"
    category := "Grocery" }

/-- C9 witness: the theorem applied to a two-product superset with
cutoffs 1 < 2. -/
theorem c9_witness :
    (1 : Nat) < 2 ∧
      2 ≤ (searchSuccess [sampleProduct, sampleProduct]).allProducts.length ∧
      ((searchSuccess [sampleProduct, sampleProduct]).allProducts.take 2).take 1 =
        (searchSuccess [sampleProduct, sampleProduct]).allProducts.take 1 :=
  ⟨by decide, by decide,
    (c9_load_more (searchSuccess [sampleProduct, sampleProduct]) 1 2
      (by decide) (by decide)).2.2⟩

/-- The IGA pagination loop always finishes once the fuel covers the page
ceiling: with `1 ≤ maxPages ≠ 999`, any fuel reaching
`maxPages + 2 - page` settles the loop, for every response stream. -/
theorem igaLoopGas_total (fetch : Nat → Except String (List IgaLink))
    (mp : Nat) (mr : Option Nat) (hmp1 : 1 ≤ mp) (hmp2 : mp ≠ 999) :
    ∀ (f p : Nat) (acc : List Product), mp + 2 ≤ p + f → 1 ≤ f →
      (igaLoopGas fetch mp mr f p acc).isSome := by
  intro f
  induction f with
  | zero =>
    intro p acc hsum hf
    omega
  | succ f ih =>
    intro p acc hsum hf
    by_cases hbreak : mp > 0 ∧ mp ≠ 999 ∧ p > mp
    · rw [igaLoopGas, if_pos hbreak]
      simp
    · have hple : p ≤ mp := by
        by_contra hgt
        exact hbreak ⟨by omega, hmp2, by omega⟩
      rw [igaLoopGas, if_neg hbreak]
      by_cases hmax : igaMaxReached mr acc.length = true
      · rw [if_pos hmax]
        simp
      · rw [if_neg hmax]
        cases hfe : fetch p with
        | error e => simp
        | ok links =>
          dsimp only
          cases hps : igaParseProducts links with
          | nil => simp
          | cons q qs =>
            dsimp only
            by_cases hmax2 : igaMaxReached mr (acc ++ q :: qs).length = true
            · rw [if_pos hmax2]
              simp
            · rw [if_neg hmax2]
              apply ih
              · omega
              · omega

/-- C6, amended claim (positive half): the browser IGA adapter's
numeric-argument search carries a hard page ceiling — for every response
stream and every `n ≥ 1` the search settles within 3 loop iterations. -/
theorem c6_amended_iga_ceiling (fetch : Nat → Except String (List IgaLink))
    (n : Nat) (h : 1 ≤ n) : (igaSearchNum fetch n 3).isSome := by
  have hmp1 : 1 ≤ (if n > 2 then 2 else n) := by split <;> omega
  have hmp2 : (if n > 2 then 2 else n) ≠ 999 := by split <;> omega
  have hs := igaLoopGas_total fetch (if n > 2 then 2 else n)
    (if n > 2 then some n else none) hmp1 hmp2 3 1 [] (by split <;> omega)
    (by omega)
  simp only [igaSearchNum]
  cases hres : igaLoopGas fetch (if n > 2 then 2 else n)
      (if n > 2 then some n else none) 3 1 [] with
  | none =>
    rw [hres] at hs
    simp at hs
  | some r =>
    cases r with
    | ok ps => simp
    | error e => simp

/-- C6 witness: the amended ceiling theorem at `n = 1` over an
empty-page stream. -/
theorem c6_theorem_witness :
    (1 : Nat) ≤ 1 ∧
      (igaSearchNum (fun _ => Except.ok []) 1 3).isSome :=
  ⟨by decide, c6_amended_iga_ceiling (fun _ => Except.ok []) 1 (by decide)⟩

/-- The adversarial Aldi response stream: every request succeeds with one
unparsable (null) item and a declared total just beyond the next offset,
so the source never signals an end and the target is never approached. -/
def c6AdvFetch : Nat → Except String AldiResponse :=
  fun offset => Except.ok ⟨200, [none], offset + 31⟩

/-- Under the adversarial stream the Aldi loop never finishes, whatever
the fuel. -/
theorem aldiLoopGas_adv_none :
    ∀ (f offset : Nat), aldiLoopGas c6AdvFetch 5 f offset [] = none := by
  intro f
  induction f with
  | zero =>
    intro off
    rfl
  | succ f ih =>
    intro off
    rw [aldiLoopGas]
    simp only [c6AdvFetch, List.length_nil, aldiAddItems, aldiParseProduct]
    norm_num
    exact ih (off + 30)

/-- C6, counterexample: the Aldi adapter's fetch loop has no iteration
ceiling — no amount of fuel settles `searchProducts` against a source
that never signals "no more results" and never satisfies the target. -/
theorem c6_counterexample :
    ¬ ∃ fuel : Nat, (aldiSearchProducts c6AdvFetch 5 fuel).isSome := by
  rintro ⟨fuel, hs⟩
  rw [aldiSearchProducts, aldiLoopGas_adv_none fuel 0] at hs
  simp at hs

/-- C7, amended claim: the browser IGA adapter catches a page-level
exception at its own boundary and returns the empty list (for every
maximum argument `n`). -/
theorem c7_amended_iga_catches (fetch : Nat → Except String (List IgaLink))
    (n : Nat) (e : String) (hf : fetch 1 = Except.error e) :
    igaSearchNum fetch n 3 = some [] := by
  have hb1 : ¬ ((if n > 2 then 2 else n) > 0 ∧ (if n > 2 then 2 else n) ≠ 999 ∧
      1 > (if n > 2 then 2 else n)) := by
    split <;> omega
  have hb2 : ¬ (igaMaxReached (if n > 2 then some n else none)
      (List.length ([] : List Product)) = true) := by
    split
    · simp only [igaMaxReached, List.length_nil, decide_eq_true_eq]
      omega
    · simp [igaMaxReached]
  have hloop : igaLoopGas fetch (if n > 2 then 2 else n)
      (if n > 2 then some n else none) 3 1 [] = some (Except.error e) := by
    rw [igaLoopGas, if_neg hb1, if_neg hb2, hf]
  simp only [igaSearchNum]
  rw [hloop]

/-- C7 witness: the amended theorem at a stream whose first navigation
throws. -/
theorem c7_theorem_witness :
    (fun _ : Nat => (Except.error "net down" : Except String (List IgaLink))) 1 =
        Except.error "net down" ∧
      igaSearchNum (fun _ => Except.error "net down") 5 3 = some [] :=
  ⟨rfl, c7_amended_iga_catches (fun _ => Except.error "net down") 5 "net down" rfl⟩

/-- C7, counterexample: when the Aldi fetch throws, `searchProducts`
re-raises the error to its caller instead of returning an empty list. -/
theorem c7_counterexample :
    aldiSearchProducts (fun _ => Except.error "ECONNREFUSED") 5 1 =
      some (Except.error "ECONNREFUSED") := rfl

/-- The page stream of the C10 demonstration: page 1 holds three distinct
products, later pages are empty. -/
def c10Fetch : Nat → Except String (List IgaLink) :=
  fun k =>
    if k = 1 then
      Except.ok
        [⟨some "A", [⟨"$1.00", false⟩]⟩, ⟨some "B", [⟨"$2.00", false⟩]⟩,
          ⟨some "C", [⟨"$3.00", false⟩]⟩]
    else Except.ok []

/-- C10: a numeric second argument `n > 2` acts as a result cap (the
returned list never exceeds `n`), while `n = 2` is interpreted as a page
count, so a call "requesting at most 2 products" can return 3. -/
theorem c10_numeric_arg_dispatch (fetch : Nat → Except String (List IgaLink))
    (n : Nat) (h : 2 < n) :
    (∃ l, igaSearchNum fetch n 3 = some l ∧ l.length ≤ n) ∧
      (∃ l2, igaSearchNum c10Fetch 2 3 = some l2 ∧ 2 < l2.length) := by
  constructor
  · have hs := igaLoopGas_total fetch 2 (some n) (by omega) (by omega) 3 1 []
      (by omega) (by omega)
    simp only [igaSearchNum, if_pos h]
    cases hres : igaLoopGas fetch 2 (some n) 3 1 [] with
    | none =>
      rw [hres] at hs
      simp at hs
    | some r =>
      cases r with
      | error e => exact ⟨[], by simp, by simp⟩
      | ok ps =>
        refine ⟨igaApplyMaxResults (some n) ps, by simp, ?_⟩
        rw [igaApplyMaxResults]
        split
        · simp only [List.length_take]
          omega
        · next hlen => omega
  · exact ⟨(igaSearchNum c10Fetch 2 3).getD [], by decide, by decide⟩

/-- C10 witness: the dispatch theorem at `n = 3` over the demonstration
stream. -/
theorem c10_witness :
    (2 : Nat) < 3 ∧
      (∃ l, igaSearchNum c10Fetch 3 3 = some l ∧ l.length ≤ 3) :=
  ⟨by decide, (c10_numeric_arg_dispatch c10Fetch 3 (by decide)).1⟩

/-- The JS number comparator is transitive. -/
theorem jsnum_le_trans (a b c : JsNum) (hab : JsNum.le a b = true)
    (hbc : JsNum.le b c = true) : JsNum.le a c = true := by
  cases a with
  | inf =>
    cases b with
    | inf =>
      cases c with
      | inf => rfl
      | fin dc => exact absurd hbc (by simp [JsNum.le])
    | fin db => exact absurd hab (by simp [JsNum.le])
  | fin da =>
    cases c with
    | inf => rfl
    | fin dc =>
      cases b with
      | inf => exact absurd hbc (by simp [JsNum.le])
      | fin db =>
        rw [JsNum.le] at hab hbc ⊢
        rw [decnum_le_iff] at hab hbc ⊢
        exact le_trans hab hbc

/-- The JS number comparator is total. -/
theorem jsnum_le_total (a b : JsNum) :
    JsNum.le a b = true ∨ JsNum.le b a = true := by
  cases a with
  | inf =>
    cases b with
    | inf => exact Or.inl rfl
    | fin db => exact Or.inr rfl
  | fin da =>
    cases b with
    | inf => exact Or.inl rfl
    | fin db =>
      rw [JsNum.le, JsNum.le, decnum_le_iff, decnum_le_iff]
      exact le_total _ _

/-- Nothing except the sentinel compares below the sentinel. -/
theorem jsnum_inf_le (x : JsNum) (h : JsNum.le JsNum.inf x = true) :
    x = JsNum.inf := by
  cases x with
  | inf => rfl
  | fin d => exact absurd h (by simp [JsNum.le])

instance : IsTrans Product priceLeAsc :=
  ⟨fun _ _ _ hab hbc => jsnum_le_trans _ _ _ hab hbc⟩

instance : IsTotal Product priceLeAsc :=
  ⟨fun _ _ => jsnum_le_total _ _⟩

instance : IsTrans Product priceLeDesc :=
  ⟨fun _ _ _ hab hbc => jsnum_le_trans _ _ _ hbc hab⟩

instance : IsTotal Product priceLeDesc :=
  ⟨fun _ _ => jsnum_le_total _ _⟩

/-- C3: on any product list whose effective sort key agrees with
`numericPrice` (true of all adapter outputs; the `||`-fallback never fires
on them), ascending `sortByPrice` permutes the list into non-decreasing
`numericPrice` order, which places every sentinel-priced product after all
finitely priced ones, and descending `sortByPrice` yields the reverse
(non-increasing) order on the keys. -/
theorem c3_sort_by_price (l : List Product)
    (h : ∀ p ∈ l, effectiveKey p = p.numericPrice) :
    (sortByPrice l true).Perm l ∧
      (sortByPrice l true).Pairwise
        (fun a b => JsNum.le a.numericPrice b.numericPrice = true) ∧
      (sortByPrice l true).Pairwise
        (fun a b => a.numericPrice = JsNum.inf → b.numericPrice = JsNum.inf) ∧
      (sortByPrice l false).Pairwise
        (fun a b => JsNum.le b.numericPrice a.numericPrice = true) := by
  have hmemA : ∀ p ∈ List.insertionSort priceLeAsc l,
      effectiveKey p = p.numericPrice := fun p hp =>
    h p ((List.perm_insertionSort priceLeAsc l).mem_iff.mp hp)
  have hmemD : ∀ p ∈ List.insertionSort priceLeDesc l,
      effectiveKey p = p.numericPrice := fun p hp =>
    h p ((List.perm_insertionSort priceLeDesc l).mem_iff.mp hp)
  have hsortedA := List.sorted_insertionSort priceLeAsc l
  have hsortedD := List.sorted_insertionSort priceLeDesc l
  have hpairA : (sortByPrice l true).Pairwise
      (fun a b => JsNum.le a.numericPrice b.numericPrice = true) := by
    refine List.Pairwise.imp_of_mem ?_ hsortedA
    intro a b ha hb hr
    simp only [priceLeAsc] at hr
    rw [hmemA a ha, hmemA b hb] at hr
    exact hr
  refine ⟨List.perm_insertionSort priceLeAsc l, hpairA, ?_, ?_⟩
  · refine hpairA.imp_of_mem ?_
    intro a b _ _ hr hinf
    rw [hinf] at hr
    exact jsnum_inf_le _ hr
  · refine List.Pairwise.imp_of_mem ?_ hsortedD
    intro a b ha hb hr
    simp only [priceLeDesc] at hr
    rw [hmemD a ha, hmemD b hb] at hr
    exact hr

/-- The sentinel-priced product of the C3 witness. -/
def c3DemoInf : Product :=
  { title := "Mystery"
    store := "Aldi"
    price := "N/A"
    discount := ""
    discountedPrice := ""
    numericPrice := JsNum.inf
    inStock := true
    unitPrice := ""
    brand := ""
    category := "" }

/-- The finitely priced product of the C3 witness. -/
def c3DemoCheap : Product :=
  { title := "Eggs"
    store := "IGA"
    price := "$4.00"
    discount := ""
    discountedPrice := ""
    numericPrice := JsNum.fin ⟨400, 2⟩
    inStock := true
    unitPrice := ""
    brand := "Eggs"
    category := "Grocery" }

/-- C3 witness: the sort theorem applied to a concrete sentinel/finite
pair. -/
theorem c3_witness :
    (∀ p ∈ [c3DemoInf, c3DemoCheap], effectiveKey p = p.numericPrice) ∧
      ((sortByPrice [c3DemoInf, c3DemoCheap] true).Perm
          [c3DemoInf, c3DemoCheap] ∧
        (sortByPrice [c3DemoInf, c3DemoCheap] true).Pairwise
          (fun a b => JsNum.le a.numericPrice b.numericPrice = true) ∧
        (sortByPrice [c3DemoInf, c3DemoCheap] true).Pairwise
          (fun a b => a.numericPrice = JsNum.inf → b.numericPrice = JsNum.inf) ∧
        (sortByPrice [c3DemoInf, c3DemoCheap] false).Pairwise
          (fun a b => JsNum.le b.numericPrice a.numericPrice = true)) :=
  ⟨by decide, c3_sort_by_price [c3DemoInf, c3DemoCheap] (by decide)⟩
